import Mathlib

/-!
# Verification of the `pipedrive` Go client library

Shallow embedding of `pipedrive.go`: a Pipedrive CRM API client exposing
`FindOrCreateOrganization`, `FindOrCreatePerson` and `CreateDeal` on top of a
GET/POST transport.  JSON values are modelled by the inductive `JValue`
(numbers restricted to integers, which covers every identifier the API
exchanges; Go decodes them as `float64` and truncates back with `int(...)`).
Decoded `map[string]interface{}` values are association lists with unique keys
(the JSON decoder resolves duplicate object keys last-wins, like Go's).
The transport is a deterministic oracle `Transport`; every operation returns
the final entity value, the Go error (or panic) outcome, and the ordered list
of transport calls it made, so that call-count and payload properties can be
stated directly.
-/

namespace Pipedrive

/-- A JSON value as decoded by `encoding/json` into `interface{}`.
Numbers are modelled as integers (all ids in the protocol are integral). -/
inductive JValue where
  | null
  | bool (b : Bool)
  | num (n : Int)
  | str (s : String)
  | arr (elems : List JValue)
  | obj (fields : List (String × JValue))
deriving BEq

/-- First-match lookup in a decoded object / field mapping (keys are unique). -/
def getKey (kvs : List (String × JValue)) (k : String) : Option JValue :=
  match kvs with
  | [] => none
  | (k', v) :: rest => if k' = k then some v else getKey rest k

/-- Model of Go map assignment `m[k] = v`: replace the binding in place, or append. -/
def setKey (kvs : List (String × JValue)) (k : String) (v : JValue) :
    List (String × JValue) :=
  match kvs with
  | [] => [(k, v)]
  | (k', v') :: rest => if k' = k then (k, v) :: rest else (k', v') :: setKey rest k v

/-- Merge a caller field mapping into a payload, Go's
`for name, value := range fields { post[name] = value }`. -/
def mergeFields (init : List (String × JValue)) (fields : List (String × JValue)) :
    List (String × JValue) :=
  fields.foldl (fun acc kv => setKey acc kv.1 kv.2) init

/-! ## URL handling: `authenticatedURL` (net/url subset)

Go's `url.Parse(base + path)` splits the query off at the first `?`;
`Query()` percent-decodes it into a multimap; `Values.Add` appends a value;
`Encode` re-serializes with keys sorted alphabetically and query escaping
(unreserved bytes kept, space becomes `+`, the rest `%XX`).  Decoded bytes
are modelled as chars (exact for ASCII, which is all the repository emits). -/

def hexDigitChar (n : Nat) : Char :=
  if n < 10 then Char.ofNat ('0'.toNat + n) else Char.ofNat ('A'.toNat + (n - 10))

def hexVal (c : Char) : Option Nat :=
  if '0' ≤ c ∧ c ≤ '9' then some (c.toNat - '0'.toNat)
  else if 'a' ≤ c ∧ c ≤ 'f' then some (c.toNat - 'a'.toNat + 10)
  else if 'A' ≤ c ∧ c ≤ 'F' then some (c.toNat - 'A'.toNat + 10)
  else none

/-- UTF-8 bytes of a character. -/
def utf8Bytes (c : Char) : List Nat :=
  let n := c.toNat
  if n < 0x80 then [n]
  else if n < 0x800 then [0xC0 + n / 0x40, 0x80 + n % 0x40]
  else if n < 0x10000 then
    [0xE0 + n / 0x1000, 0x80 + (n / 0x40) % 0x40, 0x80 + n % 0x40]
  else
    [0xF0 + n / 0x40000, 0x80 + (n / 0x1000) % 0x40, 0x80 + (n / 0x40) % 0x40,
      0x80 + n % 0x40]

/-- Bytes a query-escaped character contributes (`url.QueryEscape`). -/
def queryEscapeChar (c : Char) : List Char :=
  if c.isAlphanum ∨ c = '-' ∨ c = '_' ∨ c = '.' ∨ c = '~' then [c]
  else if c = ' ' then ['+']
  else (utf8Bytes c).foldr (fun b acc => '%' :: hexDigitChar (b / 16) :: hexDigitChar (b % 16) :: acc) []

def queryEscape (s : String) : String :=
  String.mk (List.flatten (s.toList.map queryEscapeChar))

/-- Model of `url.QueryUnescape` on the character level: `%XX` decodes to the byte,
`+` to a space; a malformed escape is an error (`none`). -/
def queryUnescapeAux : List Char → Option (List Char)
  | [] => some []
  | '%' :: a :: b :: rest => do
      let ha ← hexVal a
      let hb ← hexVal b
      let r ← queryUnescapeAux rest
      pure (Char.ofNat (16 * ha + hb) :: r)
  | '%' :: _ => none
  | '+' :: rest => (queryUnescapeAux rest).map (' ' :: ·)
  | c :: rest => (queryUnescapeAux rest).map (c :: ·)

def queryUnescape (s : String) : Option String :=
  (queryUnescapeAux s.toList).map String.mk

/-- Split a character list on a separator character. -/
def splitOnChar (sep : Char) : List Char → List (List Char)
  | [] => [[]]
  | c :: rest =>
    let r := splitOnChar sep rest
    if c = sep then [] :: r else (c :: r.headD []) :: r.tail

/-- Model of `url.ParseQuery` as consumed through `URL.Query()`: split on `&`, cut
each segment at the first `=`, unescape key and value; empty segments and
segments with a malformed escape are dropped (`Query()` ignores the error). -/
def parseQuery (q : String) : List (String × String) :=
  (splitOnChar '&' q.toList).filterMap fun seg =>
    if seg.isEmpty then none
    else
      let k := seg.takeWhile (· ≠ '=')
      let v := (seg.dropWhile (· ≠ '=')).drop 1
      match queryUnescapeAux k, queryUnescapeAux v with
      | some k', some v' => some (String.mk k', String.mk v')
      | _, _ => none

/-- The distinct keys of a pair list, in order of first appearance. -/
def distinctKeys (pairs : List (String × String)) : List String :=
  pairs.foldl (fun acc kv => if kv.1 ∈ acc then acc else acc ++ [kv.1]) []

/-- Lexicographic comparison of character lists, Go's byte-wise `string <=`
(UTF-8 byte order and code-point order agree). -/
def charListLe : List Char → List Char → Bool
  | [], _ => true
  | _ :: _, [] => false
  | a :: as, b :: bs => if a < b then true else if b < a then false else charListLe as bs

/-- Model of Go's `a <= b` on strings. -/
def goStrLe (a b : String) : Bool := charListLe a.toList b.toList

def insertSorted (k : String) : List String → List String
  | [] => [k]
  | x :: xs => if goStrLe k x then k :: x :: xs else x :: insertSorted k xs

/-- Model of `sort.Strings`: sort keys in (byte-)lexicographic order. -/
def sortKeys (ks : List String) : List String :=
  ks.foldr insertSorted []

/-- All values bound to `k`, in order of appearance (a `url.Values` slice). -/
def valuesFor (pairs : List (String × String)) (k : String) : List String :=
  pairs.filterMap fun kv => if kv.1 = k then some kv.2 else none

/-- The key/value pairs in the order `url.Values.Encode` emits them:
keys alphabetically, each key's values in insertion order. -/
def encodePairs (pairs : List (String × String)) : List (String × String) :=
  List.flatten ((sortKeys (distinctKeys pairs)).map fun k => (valuesFor pairs k).map ((k, ·)))

/-- Join rendered strings with a separator (structurally recursive). -/
def joinWith (sep : String) : List String → String
  | [] => ""
  | x :: rest => rest.foldl (fun a b => a ++ sep ++ b) x

def renderQuery (pairs : List (String × String)) : String :=
  joinWith "&" (pairs.map fun kv => queryEscape kv.1 ++ "=" ++ queryEscape kv.2)

/-- The part of `s` before the first `?`, and the part after it. -/
def splitAtQuestion (s : String) : String × String :=
  let cs := s.toList
  let pre := cs.takeWhile (· ≠ '?')
  let rest := cs.dropWhile (· ≠ '?')
  (String.mk pre, String.mk (rest.drop 1))

/-- A parsed URL after `authenticatedURL`: the scheme/host/path prefix
verbatim, and the final query pairs in encode order. -/
structure ModelURL where
  pre : String
  pairs : List (String × String)
deriving BEq

def ModelURL.render (u : ModelURL) : String :=
  if u.pairs = [] then u.pre else u.pre ++ "?" ++ renderQuery u.pairs

/-- Client configuration (`pipedrive.Client`). -/
structure Client where
  apiToken : String
  baseURL : String
  defaultUserID : Int

/-- Model of `(c *Client) authenticatedURL(path)`: parse `baseURL + path`, `Add` the
`api_token` parameter (append — `url.Values.Add` never overwrites), re-encode. -/
def authenticatedURL (c : Client) (path : String) : ModelURL :=
  let (pre, rawq) := splitAtQuestion (c.baseURL ++ path)
  let q := parseQuery rawq ++ [("api_token", c.apiToken)]
  { pre := pre, pairs := encodePairs q }

/-! ## JSON decoding (`encoding/json.Unmarshal` subset)

A fuel-indexed recursive-descent parser for the JSON the repository
exchanges: objects, arrays, strings (with the common escapes), integers,
booleans and null.  Duplicate object keys resolve last-wins, as Go's decoder
does.  Fractions/exponents and `\u` escapes are outside the model (the
protocol never produces them). -/

def skipWs : List Char → List Char
  | [] => []
  | c :: rest => if c = ' ' ∨ c = '\n' ∨ c = '\t' ∨ c = '\r' then skipWs rest else c :: rest

def parseJStringAux : List Char → Option (List Char × List Char)
  | [] => none
  | '"' :: rest => some ([], rest)
  | '\\' :: e :: rest =>
    let decode : Option Char :=
      if e = '"' then some '"'
      else if e = '\\' then some '\\'
      else if e = '/' then some '/'
      else if e = 'n' then some '\n'
      else if e = 't' then some '\t'
      else if e = 'r' then some '\r'
      else none
    match decode with
    | some c => (parseJStringAux rest).map fun sr => (c :: sr.1, sr.2)
    | none => none
  | c :: rest => (parseJStringAux rest).map fun sr => (c :: sr.1, sr.2)

def parseNumber (cs : List Char) : Option (Int × List Char) :=
  let neg := cs.head? = some '-'
  let cs' := if neg then cs.drop 1 else cs
  let digits := cs'.takeWhile Char.isDigit
  let rest := cs'.dropWhile Char.isDigit
  if digits.isEmpty then none
  else
    let n : Nat := digits.foldl (fun acc c => acc * 10 + (c.toNat - '0'.toNat)) 0
    some (if neg then -(n : Int) else (n : Int), rest)

/-- Parsing mode: a standalone value, the members of an object (with the
fields accumulated so far, duplicate keys last-wins), or the elements of an
array. -/
inductive PMode where
  | val
  | members (acc : List (String × JValue))
  | elems (acc : List JValue)

/-- The recursive-descent core, structurally recursive on fuel so that it
reduces definitionally. -/
def parseF : Nat → PMode → List Char → Option (JValue × List Char)
  | 0, _, _ => none
  | fuel + 1, .val, cs =>
    (match skipWs cs with
     | 'n' :: 'u' :: 'l' :: 'l' :: rest => some (.null, rest)
     | 't' :: 'r' :: 'u' :: 'e' :: rest => some (.bool true, rest)
     | 'f' :: 'a' :: 'l' :: 's' :: 'e' :: rest => some (.bool false, rest)
     | '"' :: rest => (parseJStringAux rest).map fun sr => (.str (String.mk sr.1), sr.2)
     | '{' :: rest =>
       (match skipWs rest with
        | '}' :: rest1 => some (.obj [], rest1)
        | rest1 => parseF fuel (.members []) rest1)
     | '[' :: rest =>
       (match skipWs rest with
        | ']' :: rest1 => some (.arr [], rest1)
        | rest1 => parseF fuel (.elems []) rest1)
     | cs1 => (parseNumber cs1).map fun nr => (.num nr.1, nr.2))
  | fuel + 1, .members acc, cs =>
    (match skipWs cs with
     | '"' :: rest =>
       (match parseJStringAux rest with
        | none => none
        | some (k, rest1) =>
          match skipWs rest1 with
          | ':' :: rest2 =>
            (match parseF fuel .val rest2 with
             | none => none
             | some (v, rest3) =>
               let acc1 := setKey acc (String.mk k) v
               match skipWs rest3 with
               | ',' :: rest4 => parseF fuel (.members acc1) rest4
               | '}' :: rest4 => some (.obj acc1, rest4)
               | _ => none)
          | _ => none)
     | _ => none)
  | fuel + 1, .elems acc, cs =>
    (match parseF fuel .val cs with
     | none => none
     | some (v, rest) =>
       match skipWs rest with
       | ',' :: rest1 => parseF fuel (.elems (acc ++ [v])) rest1
       | ']' :: rest1 => some (.arr (acc ++ [v]), rest1)
       | _ => none)

def jsonParse (s : String) : Option JValue :=
  let cs := s.toList
  match parseF (cs.length + 1) .val cs with
  | some (v, rest) => if (skipWs rest).isEmpty then some v else none
  | none => none

/-- Go error / abnormal-termination outcomes the client can produce. -/
inductive PDErr where
  /-- The `Requestor` itself returned an error; propagated verbatim. -/
  | transport (msg : String)
  /-- Error of `json.Unmarshal` (malformed JSON, or not an object). -/
  | badJson
  /-- An error built with `errors.New` / `fmt.Errorf`, by message. -/
  | message (msg : String)
  /-- A runtime panic from a failed interface type assertion or index. -/
  | panic
deriving DecidableEq

/-- Model of `json.Unmarshal(buf.Bytes(), &data)` into `map[string]interface{}`:
JSON `null` leaves the map nil (every lookup yields nil, no error),
a non-object top level is a type error. -/
def unmarshalMap (s : String) : Except PDErr (List (String × JValue)) :=
  match jsonParse s with
  | none => .error .badJson
  | some .null => .ok []
  | some (.obj kvs) => .ok kvs
  | some _ => .error .badJson

/-! ## Transport and the three public operations -/

/-- The `Requestor` interface: a deterministic oracle answering GET and POST.
A POST body is recorded structurally; on the wire it is the JSON
serialization of the payload. -/
structure Transport where
  get : String → Except String String
  post : String → String → JValue → Except String String

/-- One call through the transport, in order of occurrence. -/
inductive Call where
  | get (url : String)
  | post (url : String) (contentType : String) (payload : JValue)

/-- Model of `data["data"].([]interface{})[0].(map[string]interface{})["id"].(float64)`:
`some n` when every assertion succeeds; `none` is a Go panic. -/
def firstElemId (v : JValue) : Option Int :=
  match v with
  | .arr (.obj first :: _) =>
    (match getKey first "id" with
     | some (.num n) => some n
     | _ => none)
  | _ => none

/-- Model of `v.(map[string]interface{})["id"].(float64)` on a create response. -/
def objId (v : JValue) : Option Int :=
  match v with
  | .obj o =>
    (match getKey o "id" with
     | some (.num n) => some n
     | _ => none)
  | _ => none

/-- Model of `pipedrive.Person`. -/
structure Person where
  id : Int
  ownerID : Int
  organizationID : Int
  name : String
  email : List String
  phone : List String

/-- Model of `pipedrive.Organization`.  `fields` models the Go map `Fields` as an
association list with unique keys. -/
structure Organization where
  id : Int
  name : String
  ownerID : Int
  fields : List (String × JValue)

/-- Model of `pipedrive.Deal`. -/
structure Deal where
  id : Int
  title : String
  value : Int
  userID : Int
  personID : Int
  organizationID : Int
  fields : List (String × JValue)

/-- Result of `createEntitiy` [sic]: the decoded response map (nil on error,
like Go's zero map), the error, and the POST call made. -/
structure EntResult where
  data : List (String × JValue)
  err : Option PDErr
  calls : List Call

/-- Model of `(c *Client) createEntitiy(path, bodyData)`: marshal the payload, POST it
to the authenticated URL with content type `application/json`, read and
unmarshal the response. -/
def createEntitiy (c : Client) (t : Transport) (path : String) (bodyData : JValue) :
    EntResult :=
  let postURL := (authenticatedURL c path).render
  let call := Call.post postURL "application/json" bodyData
  match t.post postURL "application/json" bodyData with
  | .error e => { data := [], err := some (.transport e), calls := [call] }
  | .ok body =>
    match unmarshalMap body with
    | .error e => { data := [], err := some e, calls := [call] }
    | .ok kvs => { data := kvs, err := none, calls := [call] }

/-- The creation payload `FindOrCreateOrganization` builds: `name`, then the
caller's extra fields, then — unconditionally when configured — the default
owner id. -/
def orgCreatePayload (c : Client) (org : Organization) : List (String × JValue) :=
  let p := mergeFields [("name", .str org.name)] org.fields
  if c.defaultUserID ≠ 0 then setKey p "owner_id" (.num c.defaultUserID) else p

/-- The creation payload `FindOrCreatePerson` builds: `name`, `email`,
`org_id`, plus the default owner id when configured.  (The person's `Phone`
and `OwnerID` fields are not consulted.) -/
def personCreatePayload (c : Client) (p : Person) : List (String × JValue) :=
  let base := [("name", JValue.str p.name), ("email", JValue.arr (p.email.map .str)),
    ("org_id", JValue.num p.organizationID)]
  if c.defaultUserID ≠ 0 then setKey base "owner_id" (.num c.defaultUserID) else base

def orgSearchPath (org : Organization) : String :=
  "/organizations/find?term=" ++ org.name

/-- Outcome of `FindOrCreateOrganization`: final entity, error, calls made. -/
structure OrgOutcome where
  org : Organization
  err : Option PDErr
  calls : List Call

/-- The `else` branch of `FindOrCreateOrganization` (search found nothing):
build the payload, create, extract the id; on a null/absent create `data`
the error interpolates `buf` — the body of the *search* response, which is
what the variable `buf` still holds at line 135. -/
def orgCreateBranch (c : Client) (t : Transport) (org : Organization) (buf : String)
    (searchCall : Call) : OrgOutcome :=
  let r := createEntitiy c t "/organizations" (.obj (orgCreatePayload c org))
  let calls := searchCall :: r.calls
  match r.err with
  | some e => { org := org, err := some e, calls := calls }
  | none =>
    match getKey r.data "data" with
    | none =>
      { org := org, err := some (.message ("Error creating Pipedrive org: " ++ buf)),
        calls := calls }
    | some .null =>
      { org := org, err := some (.message ("Error creating Pipedrive org: " ++ buf)),
        calls := calls }
    | some v =>
      match objId v with
      | some m => { org := { org with id := m }, err := none, calls := calls }
      | none => { org := org, err := some .panic, calls := calls }

/-- Model of `(c *Client) FindOrCreateOrganization(org *Organization)`. -/
def findOrCreateOrganization (c : Client) (t : Transport) (org : Organization) :
    OrgOutcome :=
  let searchURL := (authenticatedURL c (orgSearchPath org)).render
  match t.get searchURL with
  | .error e => { org := org, err := some (.transport e), calls := [.get searchURL] }
  | .ok buf =>
    match unmarshalMap buf with
    | .error e => { org := org, err := some e, calls := [.get searchURL] }
    | .ok data =>
      match getKey data "data" with
      | none => orgCreateBranch c t org buf (.get searchURL)
      | some .null => orgCreateBranch c t org buf (.get searchURL)
      | some v =>
        match firstElemId v with
        | some n =>
          { org := { org with id := n }, err := none, calls := [.get searchURL] }
        | none => { org := org, err := some .panic, calls := [.get searchURL] }

def personSearchPath (p : Person) : String :=
  "/persons/find?search_by_email=1&term=" ++ p.email.headD ""

/-- Outcome of `FindOrCreatePerson`. -/
structure PersonOutcome where
  person : Person
  err : Option PDErr
  calls : List Call

/-- The create branch of `FindOrCreatePerson`; as for organizations, the
failure message interpolates the *search* response body `buf`. -/
def personCreateBranch (c : Client) (t : Transport) (p : Person) (buf : String)
    (searchCall : Call) : PersonOutcome :=
  let r := createEntitiy c t "/persons" (.obj (personCreatePayload c p))
  let calls := searchCall :: r.calls
  match r.err with
  | some e => { person := p, err := some e, calls := calls }
  | none =>
    match getKey r.data "data" with
    | none =>
      { person := p,
        err := some (.message ("Error creating Pipedrive person: " ++ buf)),
        calls := calls }
    | some .null =>
      { person := p,
        err := some (.message ("Error creating Pipedrive person: " ++ buf)),
        calls := calls }
    | some v =>
      match objId v with
      | some m => { person := { p with id := m }, err := none, calls := calls }
      | none => { person := p, err := some .panic, calls := calls }

/-- Model of `(c *Client) FindOrCreatePerson(newPerson *Person)`. -/
def findOrCreatePerson (c : Client) (t : Transport) (p : Person) : PersonOutcome :=
  if p.email.length < 1 then
    { person := p, err := some (.message "Must have at least one email"), calls := [] }
  else
    let searchURL := (authenticatedURL c (personSearchPath p)).render
    match t.get searchURL with
    | .error e => { person := p, err := some (.transport e), calls := [.get searchURL] }
    | .ok buf =>
      match unmarshalMap buf with
      | .error e => { person := p, err := some e, calls := [.get searchURL] }
      | .ok data =>
        match getKey data "data" with
        | none => personCreateBranch c t p buf (.get searchURL)
        | some .null => personCreateBranch c t p buf (.get searchURL)
        | some v =>
          match firstElemId v with
          | some n =>
            { person := { p with id := n }, err := none, calls := [.get searchURL] }
          | none => { person := p, err := some .panic, calls := [.get searchURL] }

mutual

/-- Rendering of `fmt`'s `%+v` output of a decoded JSON value (`<nil>` for nil, bare
strings, `map[k:v ...]`, `[v1 v2]`).  The model renders map entries in
decoder order where Go's `fmt` sorts keys — a cosmetic difference only. -/
def formatJValue : JValue → String
  | .null => "<nil>"
  | .bool true => "true"
  | .bool false => "false"
  | .num n => toString n
  | .str s => s
  | .arr xs => "[" ++ joinWith " " (formatJList xs) ++ "]"
  | .obj kvs => "map[" ++ joinWith " " (formatJFields kvs) ++ "]"

def formatJList : List JValue → List String
  | [] => []
  | v :: rest => formatJValue v :: formatJList rest

def formatJFields : List (String × JValue) → List String
  | [] => []
  | (k, v) :: rest => (k ++ ":" ++ formatJValue v) :: formatJFields rest

end

/-- Lines 198–200 of `CreateDeal`: substitute the configured default user id
into the deal itself when the deal's user id is zero. -/
def dealSubstituteOwner (c : Client) (d : Deal) : Deal :=
  if c.defaultUserID ≠ 0 ∧ d.userID = 0 then { d with userID := c.defaultUserID } else d

/-- The creation payload `CreateDeal` builds (after owner substitution):
built-in keys first, then the caller's extra fields merged over them. -/
def dealCreatePayload (d : Deal) : List (String × JValue) :=
  mergeFields
    [("title", .str d.title), ("value", .num d.value), ("user_id", .num d.userID),
      ("person_id", .num d.personID), ("org_id", .num d.organizationID)]
    d.fields

/-- Outcome of `CreateDeal`. -/
structure DealOutcome where
  deal : Deal
  err : Option PDErr
  calls : List Call

/-- Model of `(c *Client) CreateDeal(newDeal *Deal)`.  On a null/absent create `data`
the error interpolates `%+v` of the decoded response map, not the raw body. -/
def createDeal (c : Client) (t : Transport) (d0 : Deal) : DealOutcome :=
  let d := dealSubstituteOwner c d0
  let r := createEntitiy c t "/deals" (.obj (dealCreatePayload d))
  match r.err with
  | some e => { deal := d, err := some e, calls := r.calls }
  | none =>
    match getKey r.data "data" with
    | none =>
      { deal := d,
        err := some (.message ("Error creating Pipedrive deal: " ++ formatJValue (.obj r.data))),
        calls := r.calls }
    | some .null =>
      { deal := d,
        err := some (.message ("Error creating Pipedrive deal: " ++ formatJValue (.obj r.data))),
        calls := r.calls }
    | some v =>
      match objId v with
      | some m => { deal := { d with id := m }, err := none, calls := r.calls }
      | none => { deal := d, err := some .panic, calls := r.calls }

end Pipedrive

/-! ## Association-list lemmas -/

namespace Pipedrive

theorem getKey_setKey_same (l : List (String × JValue)) (k : String) (v : JValue) :
    getKey (setKey l k v) k = some v := by
  induction l with
  | nil => simp [setKey, getKey]
  | cons hd tl ih =>
    by_cases h : hd.1 = k <;> simp [setKey, getKey, h, ih]

theorem getKey_setKey_other (l : List (String × JValue)) (k k' : String) (v : JValue)
    (h : k ≠ k') : getKey (setKey l k v) k' = getKey l k' := by
  induction l with
  | nil => simp [setKey, getKey, h]
  | cons hd tl ih =>
    by_cases h' : hd.1 = k <;> simp [setKey, getKey, h', h, ih]

theorem mergeFields_cons (init : List (String × JValue)) (hd : String × JValue)
    (tl : List (String × JValue)) :
    mergeFields init (hd :: tl) = mergeFields (setKey init hd.1 hd.2) tl := rfl

theorem getKey_mergeFields_notMem (fields : List (String × JValue))
    (init : List (String × JValue)) (k : String) (h : k ∉ fields.map Prod.fst) :
    getKey (mergeFields init fields) k = getKey init k := by
  induction fields generalizing init with
  | nil => rfl
  | cons hd tl ih =>
    simp only [List.map_cons, List.mem_cons, not_or] at h
    rw [mergeFields_cons, ih (setKey init hd.1 hd.2) h.2,
      getKey_setKey_other _ _ _ _ (fun e => h.1 e.symm)]

theorem getKey_mergeFields_mem (fields : List (String × JValue))
    (init : List (String × JValue)) (k : String) (v : JValue)
    (hnd : (fields.map Prod.fst).Nodup) (hmem : (k, v) ∈ fields) :
    getKey (mergeFields init fields) k = some v := by
  induction fields generalizing init with
  | nil => cases hmem
  | cons hd tl ih =>
    simp only [List.map_cons, List.nodup_cons] at hnd
    rcases List.mem_cons.mp hmem with h | h
    · subst h
      rw [mergeFields_cons, getKey_mergeFields_notMem tl (setKey init k v) k hnd.1,
        getKey_setKey_same]
    · rw [mergeFields_cons]
      exact ih (setKey init hd.1 hd.2) hnd.2 h

end Pipedrive

/-! ## C3: empty-email precondition -/

namespace Pipedrive

/-- Claim C3: A person with no email address makes `FindOrCreatePerson` fail
fast with the `InvalidArgument` error `"Must have at least one email"`,
issuing no transport call at all and leaving the person unchanged. -/
theorem pd_C3 (c : Client) (t : Transport) (p : Person) (h : p.email = []) :
    findOrCreatePerson c t p =
      { person := p, err := some (.message "Must have at least one email"), calls := [] } := by
  simp [findOrCreatePerson, h]

theorem pd_C3_witness :
    findOrCreatePerson ⟨"abc123", "http://base", 0⟩
        ⟨fun _ => .error "no", fun _ _ _ => .error "no"⟩
        ⟨0, 0, 0, "Tester", [], []⟩ =
      { person := ⟨0, 0, 0, "Tester", [], []⟩,
        err := some (.message "Must have at least one email"), calls := [] } :=
  pd_C3 _ _ _ rfl

end Pipedrive

/-! ## C1: search hit resolves the id with no POST -/

namespace Pipedrive

/-- Claim C1: For every organization and person: when the GET search response
decodes to an envelope whose `data` is a non-empty list whose first element
is an object with numeric id `N`, the find-or-create operation sets the
entity's id to `N`, returns no error, and the only transport call is the one
GET (zero POSTs). -/
theorem pd_C1 (c : Client) (t : Transport) (org : Organization) (p : Person)
    (bodyO bodyP : String) (envO envP firstO firstP : List (String × JValue))
    (restO restP : List JValue) (n m : Int) (e : String) (es : List String)
    (hgO : t.get (authenticatedURL c (orgSearchPath org)).render = .ok bodyO)
    (huO : unmarshalMap bodyO = .ok envO)
    (hdO : getKey envO "data" = some (.arr (.obj firstO :: restO)))
    (hiO : getKey firstO "id" = some (.num n))
    (hp : p.email = e :: es)
    (hgP : t.get (authenticatedURL c (personSearchPath p)).render = .ok bodyP)
    (huP : unmarshalMap bodyP = .ok envP)
    (hdP : getKey envP "data" = some (.arr (.obj firstP :: restP)))
    (hiP : getKey firstP "id" = some (.num m)) :
    findOrCreateOrganization c t org =
      { org := { org with id := n }, err := none,
        calls := [.get (authenticatedURL c (orgSearchPath org)).render] }
  ∧ findOrCreatePerson c t p =
      { person := { p with id := m }, err := none,
        calls := [.get (authenticatedURL c (personSearchPath p)).render] } := by
  constructor
  · simp only [findOrCreateOrganization, hgO, huO, hdO, firstElemId, hiO]
  · have hlen : ¬ p.email.length < 1 := by rw [hp]; simp
    simp only [findOrCreatePerson, if_neg hlen, hgP, huP, hdP, firstElemId, hiP]

theorem pd_C1_witness :
    findOrCreateOrganization ⟨"abc123", "http://base", 0⟩
        ⟨fun u =>
            if u = "http://base/organizations/find?api_token=abc123&term=Videofruit" then
              .ok "\x7b\"success\": true, \"data\": [\x7b\"id\": 1\x7d]\x7d"
            else if u = "http://base/persons/find?api_token=abc123&search_by_email=1&term=t%40x.com" then
              .ok "\x7b\"success\": true, \"data\": [\x7b\"id\": 3\x7d]\x7d"
            else .error "URL not mocked",
          fun _ _ _ => .error "URL not mocked"⟩
        ⟨0, "Videofruit", 0, []⟩ =
      { org := ⟨1, "Videofruit", 0, []⟩, err := none,
        calls := [.get "http://base/organizations/find?api_token=abc123&term=Videofruit"] }
  ∧ findOrCreatePerson ⟨"abc123", "http://base", 0⟩
        ⟨fun u =>
            if u = "http://base/organizations/find?api_token=abc123&term=Videofruit" then
              .ok "\x7b\"success\": true, \"data\": [\x7b\"id\": 1\x7d]\x7d"
            else if u = "http://base/persons/find?api_token=abc123&search_by_email=1&term=t%40x.com" then
              .ok "\x7b\"success\": true, \"data\": [\x7b\"id\": 3\x7d]\x7d"
            else .error "URL not mocked",
          fun _ _ _ => .error "URL not mocked"⟩
        ⟨0, 0, 0, "Tester", ["t@x.com"], []⟩ =
      { person := ⟨3, 0, 0, "Tester", ["t@x.com"], []⟩, err := none,
        calls := [.get "http://base/persons/find?api_token=abc123&search_by_email=1&term=t%40x.com"] } :=
  pd_C1 _ _ _ _ "\x7b\"success\": true, \"data\": [\x7b\"id\": 1\x7d]\x7d"
    "\x7b\"success\": true, \"data\": [\x7b\"id\": 3\x7d]\x7d"
    [("success", .bool true), ("data", .arr [.obj [("id", .num 1)]])]
    [("success", .bool true), ("data", .arr [.obj [("id", .num 3)]])]
    [("id", JValue.num 1)] [("id", JValue.num 3)] [] [] 1 3 "t@x.com" []
    rfl rfl rfl rfl rfl rfl rfl rfl rfl

end Pipedrive

/-! ## C2: search miss, then create -/

namespace Pipedrive

/-- Claim C2: For every organization and person: when the search envelope's
`data` is null or absent and the create response envelope's `data` is an
object with numeric id `M`, the find-or-create operation sets the entity's id
to `M`, returns no error, and the transport calls are exactly one GET
followed by exactly one POST. -/
theorem pd_C2 (c : Client) (t : Transport) (org : Organization) (p : Person)
    (bodyO bodyP cbodyO cbodyP : String)
    (envO envP cenvO cenvP oO oP : List (String × JValue))
    (mO mP : Int) (e : String) (es : List String)
    (hgO : t.get (authenticatedURL c (orgSearchPath org)).render = .ok bodyO)
    (huO : unmarshalMap bodyO = .ok envO)
    (hdO : getKey envO "data" = none ∨ getKey envO "data" = some .null)
    (hpO : t.post (authenticatedURL c "/organizations").render "application/json"
        (.obj (orgCreatePayload c org)) = .ok cbodyO)
    (hcuO : unmarshalMap cbodyO = .ok cenvO)
    (hcdO : getKey cenvO "data" = some (.obj oO))
    (hciO : getKey oO "id" = some (.num mO))
    (hp : p.email = e :: es)
    (hgP : t.get (authenticatedURL c (personSearchPath p)).render = .ok bodyP)
    (huP : unmarshalMap bodyP = .ok envP)
    (hdP : getKey envP "data" = none ∨ getKey envP "data" = some .null)
    (hpP : t.post (authenticatedURL c "/persons").render "application/json"
        (.obj (personCreatePayload c p)) = .ok cbodyP)
    (hcuP : unmarshalMap cbodyP = .ok cenvP)
    (hcdP : getKey cenvP "data" = some (.obj oP))
    (hciP : getKey oP "id" = some (.num mP)) :
    findOrCreateOrganization c t org =
      { org := { org with id := mO }, err := none,
        calls := [.get (authenticatedURL c (orgSearchPath org)).render,
          .post (authenticatedURL c "/organizations").render "application/json"
            (.obj (orgCreatePayload c org))] }
  ∧ findOrCreatePerson c t p =
      { person := { p with id := mP }, err := none,
        calls := [.get (authenticatedURL c (personSearchPath p)).render,
          .post (authenticatedURL c "/persons").render "application/json"
            (.obj (personCreatePayload c p))] } := by
  constructor
  · rcases hdO with hdO | hdO <;>
      simp only [findOrCreateOrganization, hgO, huO, hdO, orgCreateBranch, createEntitiy,
        hpO, hcuO, hcdO, objId, hciO]
  · have hlen : ¬ p.email.length < 1 := by rw [hp]; simp
    rcases hdP with hdP | hdP <;>
      simp only [findOrCreatePerson, if_neg hlen, hgP, huP, hdP, personCreateBranch,
        createEntitiy, hpP, hcuP, hcdP, objId, hciP]


theorem pd_C2_witness :
    findOrCreateOrganization ⟨"abc123", "http://base", 0⟩
        ⟨fun _ => .ok "\x7b\"success\": true, \"data\": null\x7d",
          fun u _ _ =>
            if u = "http://base/organizations?api_token=abc123" then
              .ok "\x7b\"data\": \x7b\"id\": 2\x7d\x7d"
            else if u = "http://base/persons?api_token=abc123" then
              .ok "\x7b\"data\": \x7b\"id\": 4\x7d\x7d"
            else .error "URL not mocked"⟩
        ⟨0, "Videofruit", 0, []⟩ =
      { org := ⟨2, "Videofruit", 0, []⟩, err := none,
        calls := [.get "http://base/organizations/find?api_token=abc123&term=Videofruit",
          .post "http://base/organizations?api_token=abc123" "application/json"
            (.obj [("name", .str "Videofruit")])] }
  ∧ findOrCreatePerson ⟨"abc123", "http://base", 0⟩
        ⟨fun _ => .ok "\x7b\"success\": true, \"data\": null\x7d",
          fun u _ _ =>
            if u = "http://base/organizations?api_token=abc123" then
              .ok "\x7b\"data\": \x7b\"id\": 2\x7d\x7d"
            else if u = "http://base/persons?api_token=abc123" then
              .ok "\x7b\"data\": \x7b\"id\": 4\x7d\x7d"
            else .error "URL not mocked"⟩
        ⟨0, 0, 0, "Tester", ["t@x.com"], []⟩ =
      { person := ⟨4, 0, 0, "Tester", ["t@x.com"], []⟩, err := none,
        calls := [.get "http://base/persons/find?api_token=abc123&search_by_email=1&term=t%40x.com",
          .post "http://base/persons?api_token=abc123" "application/json"
            (.obj [("name", .str "Tester"), ("email", .arr [.str "t@x.com"]),
              ("org_id", .num 0)])] } :=
  pd_C2 _ _ _ _ "\x7b\"success\": true, \"data\": null\x7d" "\x7b\"success\": true, \"data\": null\x7d"
    "\x7b\"data\": \x7b\"id\": 2\x7d\x7d" "\x7b\"data\": \x7b\"id\": 4\x7d\x7d"
    [("success", .bool true), ("data", .null)] [("success", .bool true), ("data", .null)]
    [("data", .obj [("id", .num 2)])] [("data", .obj [("id", .num 4)])]
    [("id", JValue.num 2)] [("id", JValue.num 4)] 2 4 "t@x.com" []
    rfl rfl (Or.inr rfl) rfl rfl rfl rfl rfl rfl rfl (Or.inr rfl) rfl rfl rfl rfl

end Pipedrive

/-! ## Order and multimap lemmas for `Values.Encode` -/

namespace Pipedrive

theorem charListLe_cons_iff (a b : Char) (as bs : List Char) :
    charListLe (a :: as) (b :: bs) = true ↔ a < b ∨ (a = b ∧ charListLe as bs = true) := by
  rcases lt_trichotomy a b with h | h | h
  · simp [charListLe, h]
  · subst h
    simp [charListLe, lt_irrefl]
  · simp [charListLe, lt_asymm h, h, h.ne']

theorem charListLe_refl (as : List Char) : charListLe as as = true := by
  induction as with
  | nil => rfl
  | cons a as ih => simp [charListLe_cons_iff, ih]

theorem charListLe_total (as bs : List Char) :
    charListLe as bs = true ∨ charListLe bs as = true := by
  induction as generalizing bs with
  | nil => exact Or.inl rfl
  | cons a as ih =>
    cases bs with
    | nil => exact Or.inr rfl
    | cons b bs =>
      rcases lt_trichotomy a b with h | h | h
      · exact Or.inl ((charListLe_cons_iff _ _ _ _).mpr (Or.inl h))
      · subst h
        rcases ih bs with h' | h'
        · exact Or.inl ((charListLe_cons_iff _ _ _ _).mpr (Or.inr ⟨rfl, h'⟩))
        · exact Or.inr ((charListLe_cons_iff _ _ _ _).mpr (Or.inr ⟨rfl, h'⟩))
      · exact Or.inr ((charListLe_cons_iff _ _ _ _).mpr (Or.inl h))

theorem charListLe_trans (as bs cs : List Char) (h1 : charListLe as bs = true)
    (h2 : charListLe bs cs = true) : charListLe as cs = true := by
  induction as generalizing bs cs with
  | nil => rfl
  | cons a as ih =>
    cases bs with
    | nil => simp [charListLe] at h1
    | cons b bs =>
      cases cs with
      | nil => simp [charListLe] at h2
      | cons c cs =>
        rw [charListLe_cons_iff] at h1 h2 ⊢
        rcases h1 with h1 | ⟨rfl, h1⟩
        · rcases h2 with h2 | ⟨rfl, h2⟩
          · exact Or.inl (h1.trans h2)
          · exact Or.inl h1
        · rcases h2 with h2 | ⟨rfl, h2⟩
          · exact Or.inl h2
          · exact Or.inr ⟨rfl, ih bs cs h1 h2⟩

theorem goStrLe_refl (a : String) : goStrLe a a = true := charListLe_refl _

theorem goStrLe_total (a b : String) : goStrLe a b = true ∨ goStrLe b a = true :=
  charListLe_total _ _

theorem goStrLe_trans (a b c : String) (h1 : goStrLe a b = true)
    (h2 : goStrLe b c = true) : goStrLe a c = true := charListLe_trans _ _ _ h1 h2

theorem mem_insertSorted (k a : String) (l : List String) :
    a ∈ insertSorted k l ↔ a = k ∨ a ∈ l := by
  induction l with
  | nil => simp [insertSorted]
  | cons x xs ih =>
    by_cases h : goStrLe k x = true
    · simp [insertSorted, h]
    · simp only [insertSorted, if_neg h, List.mem_cons, ih]
      tauto

theorem pairwise_insertSorted (k : String) (l : List String)
    (h : l.Pairwise (fun a b => goStrLe a b = true)) :
    (insertSorted k l).Pairwise (fun a b => goStrLe a b = true) := by
  induction l with
  | nil => simp [insertSorted]
  | cons x xs ih =>
    rcases List.pairwise_cons.mp h with ⟨hx, hxs⟩
    by_cases hk : goStrLe k x = true
    · rw [insertSorted, if_pos hk]
      refine List.pairwise_cons.mpr ⟨?_, h⟩
      intro y hy
      rcases List.mem_cons.mp hy with rfl | hy
      · exact hk
      · exact goStrLe_trans _ _ _ hk (hx y hy)
    · rw [insertSorted, if_neg hk]
      refine List.pairwise_cons.mpr ⟨?_, ih hxs⟩
      intro y hy
      rcases (mem_insertSorted _ _ _).mp hy with heq | hy
      · rcases goStrLe_total k x with h' | h'
        · exact absurd h' hk
        · rw [heq]
          exact h'
      · exact hx y hy

theorem nodup_insertSorted (k : String) (l : List String) (hk : k ∉ l)
    (h : l.Nodup) : (insertSorted k l).Nodup := by
  induction l with
  | nil => simp [insertSorted]
  | cons x xs ih =>
    rcases List.nodup_cons.mp h with ⟨hx, hxs⟩
    simp only [List.mem_cons, not_or] at hk
    by_cases hle : goStrLe k x = true
    · simp only [insertSorted, if_pos hle]
      exact List.nodup_cons.mpr ⟨by simp [hk.1, hk.2], h⟩
    · simp only [insertSorted, if_neg hle]
      refine List.nodup_cons.mpr ⟨?_, ih hk.2 hxs⟩
      intro hmem
      rcases (mem_insertSorted _ _ _).mp hmem with h' | h'
      · exact hk.1 h'.symm
      · exact hx h'

theorem mem_sortKeys (a : String) (ks : List String) : a ∈ sortKeys ks ↔ a ∈ ks := by
  induction ks with
  | nil => simp [sortKeys]
  | cons k ks ih =>
    simp only [sortKeys, List.foldr_cons] at *
    rw [mem_insertSorted, ih, List.mem_cons]

theorem pairwise_sortKeys (ks : List String) :
    (sortKeys ks).Pairwise (fun a b => goStrLe a b = true) := by
  induction ks with
  | nil => simp [sortKeys]
  | cons k ks ih => exact pairwise_insertSorted k _ ih

theorem nodup_sortKeys (ks : List String) (h : ks.Nodup) : (sortKeys ks).Nodup := by
  induction ks with
  | nil => simp [sortKeys]
  | cons k ks ih =>
    rcases List.nodup_cons.mp h with ⟨hk, hks⟩
    exact nodup_insertSorted k _ (fun hm => hk ((mem_sortKeys _ _).mp hm)) (ih hks)

theorem mem_distinctAux (pairs : List (String × String)) (acc : List String) (x : String) :
    x ∈ pairs.foldl (fun acc kv => if kv.1 ∈ acc then acc else acc ++ [kv.1]) acc ↔
      x ∈ acc ∨ x ∈ pairs.map Prod.fst := by
  induction pairs generalizing acc with
  | nil => simp
  | cons hd tl ih =>
    simp only [List.foldl_cons, List.map_cons, List.mem_cons]
    rw [ih]
    by_cases h : hd.1 ∈ acc
    · simp only [if_pos h]
      constructor
      · rintro (h' | h')
        · exact Or.inl h'
        · exact Or.inr (Or.inr h')
      · rintro (h' | h' | h')
        · exact Or.inl h'
        · exact Or.inl (h' ▸ h)
        · exact Or.inr h'
    · simp only [if_neg h, List.mem_append, List.mem_singleton]
      tauto

theorem nodup_distinctAux (pairs : List (String × String)) (acc : List String)
    (h : acc.Nodup) :
    (pairs.foldl (fun acc kv => if kv.1 ∈ acc then acc else acc ++ [kv.1]) acc).Nodup := by
  induction pairs generalizing acc with
  | nil => exact h
  | cons hd tl ih =>
    simp only [List.foldl_cons]
    by_cases hmem : hd.1 ∈ acc
    · rw [if_pos hmem]; exact ih acc h
    · rw [if_neg hmem]
      refine ih _ ?_
      simp [List.nodup_append, h, hmem]

theorem mem_distinctKeys (pairs : List (String × String)) (x : String) :
    x ∈ distinctKeys pairs ↔ x ∈ pairs.map Prod.fst := by
  rw [distinctKeys, mem_distinctAux]
  simp

theorem nodup_distinctKeys (pairs : List (String × String)) : (distinctKeys pairs).Nodup :=
  nodup_distinctAux pairs [] List.nodup_nil

theorem mem_valuesFor (pairs : List (String × String)) (k v : String) :
    v ∈ valuesFor pairs k ↔ (k, v) ∈ pairs := by
  simp only [valuesFor, List.mem_filterMap]
  constructor
  · rintro ⟨⟨k', v'⟩, hmem, heq⟩
    split_ifs at heq with h
    · obtain rfl : v' = v := Option.some.inj heq
      subst h
      exact hmem
  · intro h
    exact ⟨(k, v), h, by simp⟩

theorem mem_encodePairs (pairs : List (String × String)) (k v : String) :
    (k, v) ∈ encodePairs pairs ↔ (k, v) ∈ pairs := by
  constructor
  · intro h
    rw [encodePairs] at h
    rcases List.mem_flatten.mp h with ⟨l, hl, hmem⟩
    rcases List.mem_map.mp hl with ⟨k', hk', rfl⟩
    rcases List.mem_map.mp hmem with ⟨w, hw, heq⟩
    injection heq with h1 h2
    subst h1
    subst h2
    exact (mem_valuesFor _ _ _).mp hw
  · intro h
    rw [encodePairs]
    refine List.mem_flatten.mpr ⟨(valuesFor pairs k).map ((k, ·)),
      List.mem_map.mpr ⟨k, ?_, rfl⟩,
      List.mem_map.mpr ⟨v, (mem_valuesFor _ _ _).mpr h, rfl⟩⟩
    rw [mem_sortKeys, mem_distinctKeys]
    exact List.mem_map.mpr ⟨(k, v), h, rfl⟩

theorem pairwise_encodePairs (pairs : List (String × String)) :
    (encodePairs pairs).Pairwise (fun a b => goStrLe a.1 b.1 = true) := by
  rw [encodePairs, List.pairwise_flatten]
  constructor
  · intro l hl
    rcases List.mem_map.mp hl with ⟨k, _, rfl⟩
    exact List.pairwise_map.mpr
      (List.pairwise_of_forall_mem_list fun a _ b _ => goStrLe_refl k)
  · rw [List.pairwise_map]
    refine (pairwise_sortKeys _).imp_of_mem ?_
    rintro k1 k2 _ _ h x hx y hy
    rcases List.mem_map.mp hx with ⟨w1, _, rfl⟩
    rcases List.mem_map.mp hy with ⟨w2, _, rfl⟩
    exact h


theorem valuesFor_append (l1 l2 : List (String × String)) (k : String) :
    valuesFor (l1 ++ l2) k = valuesFor l1 k ++ valuesFor l2 k := by
  simp [valuesFor, List.filterMap_append]

theorem valuesFor_flatten (L : List (List (String × String))) (k : String) :
    valuesFor L.flatten k = (L.map (fun l => valuesFor l k)).flatten := by
  induction L with
  | nil => rfl
  | cons l ls ih => simp [valuesFor_append, ih]

theorem valuesFor_map_pair (vs : List String) (k' k : String) :
    valuesFor (vs.map ((k', ·))) k = if k' = k then vs else [] := by
  by_cases h : k' = k
  · subst h
    induction vs with
    | nil => simp [valuesFor]
    | cons x xs ih => simpa [valuesFor] using ih
  · induction vs with
    | nil => simp [valuesFor, h]
    | cons x xs ih => simp [valuesFor, h, ih]

theorem flatten_if_single (k : String) (V : List String) (ks : List String)
    (hnd : ks.Nodup) :
    List.flatten (ks.map fun k' => if k' = k then V else []) =
      if k ∈ ks then V else [] := by
  induction ks with
  | nil => simp
  | cons x xs ih =>
    rcases List.nodup_cons.mp hnd with ⟨hx, hxs⟩
    by_cases h : x = k
    · subst h
      simp [hx, ih hxs]
    · simp only [List.map_cons, List.flatten_cons, if_neg h, List.nil_append, ih hxs,
        List.mem_cons]
      have : ¬ k = x := fun e => h e.symm
      simp [this]

theorem valuesFor_nil_of_notMem (pairs : List (String × String)) (k : String)
    (h : k ∉ pairs.map Prod.fst) : valuesFor pairs k = [] := by
  rw [List.eq_nil_iff_forall_not_mem]
  intro v hv
  exact h (List.mem_map.mpr ⟨(k, v), (mem_valuesFor _ _ _).mp hv, rfl⟩)

theorem valuesFor_encodePairs (pairs : List (String × String)) (k : String) :
    valuesFor (encodePairs pairs) k = valuesFor pairs k := by
  rw [encodePairs, valuesFor_flatten, List.map_map]
  have hcongr :
      (sortKeys (distinctKeys pairs)).map
          ((fun l => valuesFor l k) ∘ fun k' => (valuesFor pairs k').map ((k', ·))) =
        (sortKeys (distinctKeys pairs)).map fun k' =>
          if k' = k then valuesFor pairs k else [] := by
    refine List.map_congr_left fun k' _ => ?_
    by_cases h : k' = k
    · subst h
      simp [Function.comp, valuesFor_map_pair]
    · simp [Function.comp, valuesFor_map_pair, h]
  rw [hcongr, flatten_if_single k _ _ (nodup_sortKeys _ (nodup_distinctKeys pairs))]
  by_cases h : k ∈ pairs.map Prod.fst
  · rw [if_pos (by rw [mem_sortKeys, mem_distinctKeys]; exact h)]
  · rw [if_neg (by rw [mem_sortKeys, mem_distinctKeys]; exact h),
      valuesFor_nil_of_notMem pairs k h]

end Pipedrive

/-! ## C4 and C5: the authenticated URL builder -/

namespace Pipedrive

/-- Claim C4: `authenticatedURL` is deterministic (a pure function of client and
path), its encoded query pairs are in alphabetical (Go byte-order) key order,
every pair parsed from the path's pre-existing query survives into the
output, and the concrete scenario base `http://base`, token `abc123`, path
`/organizations?term=paper` renders exactly
`http://base/organizations?api_token=abc123&term=paper`. -/
theorem pd_C4 (c : Client) (path : String) :
    ((authenticatedURL c path).render = (authenticatedURL c path).render
      ∧ (authenticatedURL c path).pairs.Pairwise (fun a b => goStrLe a.1 b.1 = true))
  ∧ (∀ k v, (k, v) ∈ parseQuery (splitAtQuestion (c.baseURL ++ path)).2 →
      (k, v) ∈ (authenticatedURL c path).pairs)
  ∧ (authenticatedURL ⟨"abc123", "http://base", 0⟩ "/organizations?term=paper").render =
      "http://base/organizations?api_token=abc123&term=paper" := by
  refine ⟨⟨rfl, ?_⟩, ?_, rfl⟩
  · exact pairwise_encodePairs _
  · intro k v h
    exact (mem_encodePairs _ _ _).mpr (List.mem_append_left _ h)

theorem pd_C4_witness :
    ("term", "paper") ∈
      (authenticatedURL ⟨"abc123", "http://base", 0⟩ "/organizations?term=paper").pairs :=
  (pd_C4 ⟨"abc123", "http://base", 0⟩ "/organizations?term=paper").2.1 "term" "paper"
    (by decide)

/-- Claim C5, counterexample:  With token `abc123` and a path already carrying
`api_token=old`, the builder appends rather than overwrites: the output holds
both values `["old", "abc123"]` under `api_token`, not the single configured
token. -/
theorem pd_C5_cex :
    valuesFor (authenticatedURL ⟨"abc123", "http://base", 0⟩
        "/organizations?api_token=old").pairs "api_token" = ["old", "abc123"]
  ∧ (authenticatedURL ⟨"abc123", "http://base", 0⟩
        "/organizations?api_token=old").render =
      "http://base/organizations?api_token=old&api_token=abc123"
  ∧ valuesFor (authenticatedURL ⟨"abc123", "http://base", 0⟩
        "/organizations?api_token=old").pairs "api_token" ≠ ["abc123"] :=
  ⟨rfl, rfl, by decide⟩

/-- Claim C5, amended: `url.Values.Add` appends: the output's `api_token`
values are exactly the pre-existing ones (in order) followed by the
configured token — the old value is neither deleted nor overwritten, and the
configured token is always last. -/
theorem pd_C5_amended (c : Client) (path : String) :
    valuesFor (authenticatedURL c path).pairs "api_token" =
      valuesFor (parseQuery (splitAtQuestion (c.baseURL ++ path)).2) "api_token"
        ++ [c.apiToken] := by
  have h0 : (authenticatedURL c path).pairs =
      encodePairs (parseQuery (splitAtQuestion (c.baseURL ++ path)).2
        ++ [("api_token", c.apiToken)]) := rfl
  rw [h0, valuesFor_encodePairs, valuesFor_append]
  simp [valuesFor]

end Pipedrive

/-! ## C6 and C7: creation payload contents -/

namespace Pipedrive

theorem createEntitiy_calls (c : Client) (t : Transport) (path : String) (bodyData : JValue) :
    (createEntitiy c t path bodyData).calls =
      [.post (authenticatedURL c path).render "application/json" bodyData] := by
  cases h : t.post (authenticatedURL c path).render "application/json" bodyData with
  | error e => simp [createEntitiy, h]
  | ok b =>
    cases h2 : unmarshalMap b with
    | error e2 => simp [createEntitiy, h, h2]
    | ok kvs => simp [createEntitiy, h, h2]

theorem personCreateBranch_calls (c : Client) (t : Transport) (p : Person) (buf : String)
    (sc : Call) :
    (personCreateBranch c t p buf sc).calls =
      [sc, .post (authenticatedURL c "/persons").render "application/json"
        (.obj (personCreatePayload c p))] := by
  simp only [personCreateBranch]
  repeat' split
  all_goals simp [createEntitiy_calls c t "/persons" (.obj (personCreatePayload c p))]

theorem orgCreateBranch_calls (c : Client) (t : Transport) (org : Organization) (buf : String)
    (sc : Call) :
    (orgCreateBranch c t org buf sc).calls =
      [sc, .post (authenticatedURL c "/organizations").render "application/json"
        (.obj (orgCreatePayload c org))] := by
  simp only [orgCreateBranch]
  repeat' split
  all_goals simp [createEntitiy_calls c t "/organizations" (.obj (orgCreatePayload c org))]

/-- Claim C6, counterexample:  A person with a non-empty `Phone` list whose
search misses: the POSTed creation payload carries `name`, `email` and
`org_id` but no `phone` key at all. -/
theorem pd_C6_cex :
    (findOrCreatePerson ⟨"abc123", "http://base", 0⟩
        ⟨fun _ => .ok "\x7b\"data\": null\x7d",
          fun _ _ _ => .ok "\x7b\"data\": \x7b\"id\": 4\x7d\x7d"⟩
        ⟨0, 0, 0, "Tester", ["t@x.com"], ["555-1234"]⟩).calls =
      [.get "http://base/persons/find?api_token=abc123&search_by_email=1&term=t%40x.com",
        .post "http://base/persons?api_token=abc123" "application/json"
          (.obj [("name", .str "Tester"), ("email", .arr [.str "t@x.com"]),
            ("org_id", .num 0)])]
  ∧ getKey [("name", .str "Tester"), ("email", .arr [.str "t@x.com"]), ("org_id", .num 0)]
      "phone" = none
  ∧ (["555-1234"] : List String) ≠ [] :=
  ⟨rfl, rfl, by decide⟩

/-- Claim C6, amended:  On a search miss, `FindOrCreatePerson` POSTs exactly
one creation payload containing the person's name, emails and organization id
(plus the default owner id when configured) — but never the person's phones:
there is no `phone` key in the payload. -/
theorem pd_C6_amended (c : Client) (t : Transport) (p : Person) (body : String)
    (env : List (String × JValue)) (e : String) (es : List String)
    (hp : p.email = e :: es)
    (hg : t.get (authenticatedURL c (personSearchPath p)).render = .ok body)
    (hu : unmarshalMap body = .ok env)
    (hd : getKey env "data" = none ∨ getKey env "data" = some .null) :
    (findOrCreatePerson c t p).calls =
      [.get (authenticatedURL c (personSearchPath p)).render,
        .post (authenticatedURL c "/persons").render "application/json"
          (.obj (personCreatePayload c p))]
  ∧ getKey (personCreatePayload c p) "name" = some (.str p.name)
  ∧ getKey (personCreatePayload c p) "email" = some (.arr (p.email.map .str))
  ∧ getKey (personCreatePayload c p) "org_id" = some (.num p.organizationID)
  ∧ getKey (personCreatePayload c p) "phone" = none
  ∧ (c.defaultUserID ≠ 0 →
      getKey (personCreatePayload c p) "owner_id" = some (.num c.defaultUserID)) := by
  have hlen : ¬ p.email.length < 1 := by rw [hp]; simp
  refine ⟨?_, ?_, ?_, ?_, ?_, ?_⟩
  · rcases hd with hd | hd <;>
      simp only [findOrCreatePerson, if_neg hlen, hg, hu, hd] <;>
      exact personCreateBranch_calls c t p body _
  all_goals (
    by_cases h : c.defaultUserID = 0 <;>
      simp [personCreatePayload, h, getKey, setKey])

theorem pd_C6_amended_witness :
    (findOrCreatePerson ⟨"abc123", "http://base", 7⟩
        ⟨fun _ => .ok "\x7b\"data\": null\x7d", fun _ _ _ => .ok "\x7b\"data\": \x7b\"id\": 4\x7d\x7d"⟩
        ⟨0, 0, 0, "Tester", ["t@x.com"], ["555-1234"]⟩).calls =
      [.get "http://base/persons/find?api_token=abc123&search_by_email=1&term=t%40x.com",
        .post "http://base/persons?api_token=abc123" "application/json"
          (.obj [("name", .str "Tester"), ("email", .arr [.str "t@x.com"]),
            ("org_id", .num 0), ("owner_id", .num 7)])]
  ∧ getKey [("name", JValue.str "Tester"), ("email", .arr [.str "t@x.com"]),
      ("org_id", .num 0), ("owner_id", .num 7)] "name" = some (.str "Tester")
  ∧ getKey [("name", JValue.str "Tester"), ("email", .arr [.str "t@x.com"]),
      ("org_id", .num 0), ("owner_id", .num 7)] "email" = some (.arr [.str "t@x.com"])
  ∧ getKey [("name", JValue.str "Tester"), ("email", .arr [.str "t@x.com"]),
      ("org_id", .num 0), ("owner_id", .num 7)] "org_id" = some (.num 0)
  ∧ getKey [("name", JValue.str "Tester"), ("email", .arr [.str "t@x.com"]),
      ("org_id", .num 0), ("owner_id", .num 7)] "phone" = none
  ∧ ((7 : Int) ≠ 0 →
      getKey [("name", JValue.str "Tester"), ("email", .arr [.str "t@x.com"]),
        ("org_id", .num 0), ("owner_id", .num 7)] "owner_id" = some (.num 7)) :=
  pd_C6_amended ⟨"abc123", "http://base", 7⟩
    ⟨fun _ => .ok "\x7b\"data\": null\x7d", fun _ _ _ => .ok "\x7b\"data\": \x7b\"id\": 4\x7d\x7d"⟩
    ⟨0, 0, 0, "Tester", ["t@x.com"], ["555-1234"]⟩
    "\x7b\"data\": null\x7d" [("data", .null)] "t@x.com" [] rfl rfl rfl (Or.inr rfl)

/-- Claim C7, counterexample:  With default owner 7 configured and an
organization whose extra fields carry `owner_id = 5`, the creation payload
POSTs `owner_id = 7`: the configured default *overwrites* the caller's owner
rather than yielding to it. -/
theorem pd_C7_cex :
    (findOrCreateOrganization ⟨"abc123", "http://base", 7⟩
        ⟨fun _ => .ok "\x7b\"data\": null\x7d", fun _ _ _ => .ok "\x7b\"data\": \x7b\"id\": 9\x7d\x7d"⟩
        ⟨0, "X", 0, [("owner_id", JValue.num 5)]⟩).calls =
      [.get "http://base/organizations/find?api_token=abc123&term=X",
        .post "http://base/organizations?api_token=abc123" "application/json"
          (.obj [("name", .str "X"), ("owner_id", .num 7)])]
  ∧ ("owner_id", JValue.num 5) ∈
      [("owner_id", JValue.num 5)]
  ∧ getKey (orgCreatePayload ⟨"abc123", "http://base", 7⟩
      ⟨0, "X", 0, [("owner_id", JValue.num 5)]⟩) "owner_id" = some (.num 7)
  ∧ some (JValue.num 7) ≠ some (JValue.num 5) :=
  ⟨rfl, by simp, rfl, by simp⟩

/-- Claim C7, amended:  When a non-zero default owner id is configured it is
always written into the organization and person creation payloads, even over
an owner supplied in the organization's extra fields; only when no default is
configured (zero) does an `owner_id` from the extra fields survive, and then
the person payload carries no owner at all. -/
theorem pd_C7_amended (c : Client) (org : Organization) (p : Person) :
    (c.defaultUserID ≠ 0 →
        getKey (orgCreatePayload c org) "owner_id" = some (.num c.defaultUserID)
      ∧ getKey (personCreatePayload c p) "owner_id" = some (.num c.defaultUserID))
  ∧ (c.defaultUserID = 0 →
        getKey (personCreatePayload c p) "owner_id" = none
      ∧ ∀ v, (org.fields.map Prod.fst).Nodup → ("owner_id", v) ∈ org.fields →
          getKey (orgCreatePayload c org) "owner_id" = some v) := by
  constructor
  · intro h
    constructor
    · simp only [orgCreatePayload, if_pos h]
      exact getKey_setKey_same _ _ _
    · simp only [personCreatePayload, if_pos h]
      exact getKey_setKey_same _ _ _
  · intro h
    constructor
    · simp [personCreatePayload, h, getKey]
    · intro v hnd hmem
      have h' : ¬ (c.defaultUserID ≠ 0) := by simp [h]
      simp only [orgCreatePayload, if_neg h']
      exact getKey_mergeFields_mem _ _ _ _ hnd hmem

theorem pd_C7_amended_witness :
    getKey (orgCreatePayload ⟨"abc123", "http://base", 7⟩
        ⟨0, "X", 0, [("owner_id", JValue.num 5)]⟩) "owner_id" = some (.num 7)
  ∧ getKey (orgCreatePayload ⟨"abc123", "http://base", 0⟩
        ⟨0, "X", 0, [("owner_id", JValue.num 5)]⟩) "owner_id" = some (.num 5) :=
  ⟨((pd_C7_amended ⟨"abc123", "http://base", 7⟩ ⟨0, "X", 0, [("owner_id", JValue.num 5)]⟩
      ⟨0, 0, 0, "", [], []⟩).1 (by decide)).1,
    ((pd_C7_amended ⟨"abc123", "http://base", 0⟩ ⟨0, "X", 0, [("owner_id", JValue.num 5)]⟩
      ⟨0, 0, 0, "", [], []⟩).2 rfl).2 (JValue.num 5) (by simp) (by simp)⟩

end Pipedrive

/-! ## C8, C9, C10: creation-failure diagnostics, frame effects, merge order -/

namespace Pipedrive

/-- Claim C8, counterexample:  When the create response's `data` is null, the
error message appended by `FindOrCreateOrganization` interpolates the body of
the *search* response (the outer `buf` at line 135), not the body of the
create request, which differs here. -/
theorem pd_C8_cex :
    (findOrCreateOrganization ⟨"abc123", "http://base", 0⟩
        ⟨fun _ => .ok "\x7b\"success\": true, \"data\": null\x7d",
          fun _ _ _ => .ok "\x7b\"success\": false, \"data\": null\x7d"⟩
        ⟨0, "X", 0, []⟩).err =
      some (.message ("Error creating Pipedrive org: " ++ "\x7b\"success\": true, \"data\": null\x7d"))
  ∧ ("\x7b\"success\": true, \"data\": null\x7d" : String) ≠ "\x7b\"success\": false, \"data\": null\x7d"
  ∧ (findOrCreateOrganization ⟨"abc123", "http://base", 0⟩
        ⟨fun _ => .ok "\x7b\"success\": true, \"data\": null\x7d",
          fun _ _ _ => .ok "\x7b\"success\": false, \"data\": null\x7d"⟩
        ⟨0, "X", 0, []⟩).err ≠
      some (.message ("Error creating Pipedrive org: " ++ "\x7b\"success\": false, \"data\": null\x7d")) :=
  ⟨rfl, by decide, by decide⟩

/-- Claim C8, amended:  A create whose response envelope has `data` null/absent
fails with a creation error, but the diagnostic payload is: for organizations
and persons, the raw body of the preceding *search* response; for deals, a
`%+v` rendering of the decoded create-response map — never the raw create
response body. -/
theorem pd_C8_amended (c : Client) (t : Transport) (org : Organization) (p : Person)
    (d : Deal) (bodyO cbodyO bodyP cbodyP cbodyD : String)
    (envO cenvO envP cenvP cenvD : List (String × JValue)) (e : String) (es : List String)
    (hgO : t.get (authenticatedURL c (orgSearchPath org)).render = .ok bodyO)
    (huO : unmarshalMap bodyO = .ok envO)
    (hdO : getKey envO "data" = none ∨ getKey envO "data" = some .null)
    (hpO : t.post (authenticatedURL c "/organizations").render "application/json"
        (.obj (orgCreatePayload c org)) = .ok cbodyO)
    (hcuO : unmarshalMap cbodyO = .ok cenvO)
    (hcdO : getKey cenvO "data" = none ∨ getKey cenvO "data" = some .null)
    (hp : p.email = e :: es)
    (hgP : t.get (authenticatedURL c (personSearchPath p)).render = .ok bodyP)
    (huP : unmarshalMap bodyP = .ok envP)
    (hdP : getKey envP "data" = none ∨ getKey envP "data" = some .null)
    (hpP : t.post (authenticatedURL c "/persons").render "application/json"
        (.obj (personCreatePayload c p)) = .ok cbodyP)
    (hcuP : unmarshalMap cbodyP = .ok cenvP)
    (hcdP : getKey cenvP "data" = none ∨ getKey cenvP "data" = some .null)
    (hpD : t.post (authenticatedURL c "/deals").render "application/json"
        (.obj (dealCreatePayload (dealSubstituteOwner c d))) = .ok cbodyD)
    (hcuD : unmarshalMap cbodyD = .ok cenvD)
    (hcdD : getKey cenvD "data" = none ∨ getKey cenvD "data" = some .null) :
    (findOrCreateOrganization c t org).err =
      some (.message ("Error creating Pipedrive org: " ++ bodyO))
  ∧ (findOrCreatePerson c t p).err =
      some (.message ("Error creating Pipedrive person: " ++ bodyP))
  ∧ (createDeal c t d).err =
      some (.message ("Error creating Pipedrive deal: " ++ formatJValue (.obj cenvD))) := by
  refine ⟨?_, ?_, ?_⟩
  · rcases hdO with h | h <;> rcases hcdO with h2 | h2 <;>
      simp only [findOrCreateOrganization, hgO, huO, h, orgCreateBranch, createEntitiy,
        hpO, hcuO, h2]
  · have hlen : ¬ p.email.length < 1 := by rw [hp]; simp
    rcases hdP with h | h <;> rcases hcdP with h2 | h2 <;>
      simp only [findOrCreatePerson, if_neg hlen, hgP, huP, h, personCreateBranch,
        createEntitiy, hpP, hcuP, h2]
  · rcases hcdD with h2 | h2 <;>
      simp only [createDeal, createEntitiy, hpD, hcuD, h2]

theorem pd_C8_amended_witness :
    (findOrCreateOrganization ⟨"abc123", "http://base", 0⟩
        ⟨fun _ => .ok "\x7b\"success\": true, \"data\": null\x7d",
          fun _ _ _ => .ok "\x7b\"success\": false, \"data\": null\x7d"⟩
        ⟨0, "X", 0, []⟩).err =
      some (.message ("Error creating Pipedrive org: " ++ "\x7b\"success\": true, \"data\": null\x7d"))
  ∧ (findOrCreatePerson ⟨"abc123", "http://base", 0⟩
        ⟨fun _ => .ok "\x7b\"success\": true, \"data\": null\x7d",
          fun _ _ _ => .ok "\x7b\"success\": false, \"data\": null\x7d"⟩
        ⟨0, 0, 0, "Tester", ["t@x.com"], []⟩).err =
      some (.message ("Error creating Pipedrive person: " ++ "\x7b\"success\": true, \"data\": null\x7d"))
  ∧ (createDeal ⟨"abc123", "http://base", 0⟩
        ⟨fun _ => .ok "\x7b\"success\": true, \"data\": null\x7d",
          fun _ _ _ => .ok "\x7b\"success\": false, \"data\": null\x7d"⟩
        ⟨0, "D", 10, 0, 3, 4, []⟩).err =
      some (.message ("Error creating Pipedrive deal: " ++
        formatJValue (.obj [("success", .bool false), ("data", .null)]))) :=
  pd_C8_amended ⟨"abc123", "http://base", 0⟩
    ⟨fun _ => .ok "\x7b\"success\": true, \"data\": null\x7d",
      fun _ _ _ => .ok "\x7b\"success\": false, \"data\": null\x7d"⟩
    ⟨0, "X", 0, []⟩ ⟨0, 0, 0, "Tester", ["t@x.com"], []⟩ ⟨0, "D", 10, 0, 3, 4, []⟩
    "\x7b\"success\": true, \"data\": null\x7d" "\x7b\"success\": false, \"data\": null\x7d"
    "\x7b\"success\": true, \"data\": null\x7d" "\x7b\"success\": false, \"data\": null\x7d"
    "\x7b\"success\": false, \"data\": null\x7d"
    [("success", .bool true), ("data", .null)] [("success", .bool false), ("data", .null)]
    [("success", .bool true), ("data", .null)] [("success", .bool false), ("data", .null)]
    [("success", .bool false), ("data", .null)] "t@x.com" []
    rfl rfl (Or.inr rfl) rfl rfl (Or.inr rfl) rfl rfl rfl (Or.inr rfl) rfl rfl
    (Or.inr rfl) rfl rfl (Or.inr rfl)

theorem findOrCreateOrganization_org_shape (c : Client) (t : Transport) (org : Organization) :
    ∃ i, (findOrCreateOrganization c t org).org = { org with id := i } := by
  refine ⟨(findOrCreateOrganization c t org).org.id, ?_⟩
  simp only [findOrCreateOrganization, orgCreateBranch]
  repeat' split
  all_goals rfl

theorem findOrCreatePerson_person_shape (c : Client) (t : Transport) (p : Person) :
    ∃ i, (findOrCreatePerson c t p).person = { p with id := i } := by
  refine ⟨(findOrCreatePerson c t p).person.id, ?_⟩
  simp only [findOrCreatePerson, personCreateBranch]
  repeat' split
  all_goals rfl

theorem createDeal_deal_shape (c : Client) (t : Transport) (d : Deal) :
    ∃ i, (createDeal c t d).deal = { dealSubstituteOwner c d with id := i } := by
  refine ⟨(createDeal c t d).deal.id, ?_⟩
  simp only [createDeal]
  repeat' split
  all_goals rfl

/-- Claim C9, counterexample:  `CreateDeal` with a configured default user id 7
and a deal whose `UserID` is 0 mutates the deal's `UserID` field to 7 before
the transport call, and leaves it mutated even though the call fails — so
`id` is not the only field the operation can mutate. -/
theorem pd_C9_cex :
    (createDeal ⟨"abc123", "http://base", 7⟩
        ⟨fun _ => .error "down", fun _ _ _ => .error "down"⟩
        ⟨0, "D", 10, 0, 3, 4, []⟩).deal.userID = 7
  ∧ (⟨0, "D", 10, 0, 3, 4, []⟩ : Deal).userID = 0
  ∧ (createDeal ⟨"abc123", "http://base", 7⟩
        ⟨fun _ => .error "down", fun _ _ _ => .error "down"⟩
        ⟨0, "D", 10, 0, 3, 4, []⟩).err ≠ none :=
  ⟨rfl, rfl, by decide⟩

/-- Claim C9, amended:  The find-or-create operations mutate only the entity's
`id`: every other organization and person field is preserved on success and
failure.  `CreateDeal` additionally rewrites `UserID` to the configured
default exactly when the default is non-zero and the deal's `UserID` was
zero; all its other non-id fields are preserved. -/
theorem pd_C9_amended (c : Client) (t : Transport) (org : Organization) (p : Person)
    (d : Deal) :
    ((findOrCreateOrganization c t org).org.name = org.name
      ∧ (findOrCreateOrganization c t org).org.ownerID = org.ownerID
      ∧ (findOrCreateOrganization c t org).org.fields = org.fields)
  ∧ ((findOrCreatePerson c t p).person.ownerID = p.ownerID
      ∧ (findOrCreatePerson c t p).person.organizationID = p.organizationID
      ∧ (findOrCreatePerson c t p).person.name = p.name
      ∧ (findOrCreatePerson c t p).person.email = p.email
      ∧ (findOrCreatePerson c t p).person.phone = p.phone)
  ∧ ((createDeal c t d).deal.title = d.title
      ∧ (createDeal c t d).deal.value = d.value
      ∧ (createDeal c t d).deal.personID = d.personID
      ∧ (createDeal c t d).deal.organizationID = d.organizationID
      ∧ (createDeal c t d).deal.fields = d.fields
      ∧ (createDeal c t d).deal.userID =
          (if c.defaultUserID ≠ 0 ∧ d.userID = 0 then c.defaultUserID else d.userID)) := by
  obtain ⟨i, hi⟩ := findOrCreateOrganization_org_shape c t org
  obtain ⟨j, hj⟩ := findOrCreatePerson_person_shape c t p
  obtain ⟨l, hl⟩ := createDeal_deal_shape c t d
  refine ⟨⟨?_, ?_, ?_⟩, ⟨?_, ?_, ?_, ?_, ?_⟩, ⟨?_, ?_, ?_, ?_, ?_, ?_⟩⟩ <;>
    simp only [hi, hj, hl] <;> unfold dealSubstituteOwner <;> split <;> simp_all

/-- Claim C10:  Caller extra fields are merged after the built-in payload keys:
a `Fields` entry under a built-in deal key (`title`, `value`, `user_id`,
`person_id`, `org_id`) or under the organization's `name` key wins over the
struct field's value in the POSTed payload. -/
theorem pd_C10 (c : Client) (d : Deal) (org : Organization) (k : String) (v w : JValue)
    (hnd : (d.fields.map Prod.fst).Nodup)
    (hkd : (k, v) ∈ d.fields)
    (_hk : k = "title" ∨ k = "value" ∨ k = "user_id" ∨ k = "person_id" ∨ k = "org_id")
    (hno : (org.fields.map Prod.fst).Nodup)
    (hko : ("name", w) ∈ org.fields) :
    getKey (dealCreatePayload (dealSubstituteOwner c d)) k = some v
  ∧ getKey (orgCreatePayload c org) "name" = some w := by
  constructor
  · have hfields : (dealSubstituteOwner c d).fields = d.fields := by
      unfold dealSubstituteOwner
      split <;> rfl
    rw [dealCreatePayload, hfields]
    exact getKey_mergeFields_mem _ _ _ _ hnd hkd
  · by_cases h : c.defaultUserID ≠ 0
    · simp only [orgCreatePayload, if_pos h]
      rw [getKey_setKey_other _ _ _ _ (by decide)]
      exact getKey_mergeFields_mem _ _ _ _ hno hko
    · simp only [orgCreatePayload, if_neg h]
      exact getKey_mergeFields_mem _ _ _ _ hno hko

theorem pd_C10_witness :
    getKey (dealCreatePayload (dealSubstituteOwner ⟨"abc123", "http://base", 0⟩
        ⟨0, "T", 1, 2, 3, 4, [("title", JValue.str "X")]⟩)) "title" = some (.str "X")
  ∧ getKey (orgCreatePayload ⟨"abc123", "http://base", 0⟩
        ⟨0, "O", 0, [("name", JValue.str "N2")]⟩) "name" = some (.str "N2") :=
  pd_C10 ⟨"abc123", "http://base", 0⟩ ⟨0, "T", 1, 2, 3, 4, [("title", JValue.str "X")]⟩
    ⟨0, "O", 0, [("name", JValue.str "N2")]⟩ "title" (JValue.str "X") (JValue.str "N2")
    (by simp) (by simp) (Or.inl rfl) (by simp) (by simp)

end Pipedrive
